import Mathlib

/-!
The in-memory person store of peek8/prometric and its HTTP handlers.

A shallow embedding of `src/api/store.go`, of the handlers of `src/api/api.go`
and of the metric variables of `src/api/metrics.go`.

Modelling conventions.

* Go `int` is the 64-bit two's complement integer: values are `Int`, and every
  addition the source performs goes through `wrapInt`.
* Go `map[string]Person` is a finite map with unique keys: `AList`.  The order
  in which Go iterates over a map is unspecified; it is an input of the model
  (`IterOrder`), constrained to be a permutation of the entries.
* `time.Now().UTC().Format(time.RFC3339)` is an input (`now`).
* The mutex only serialises callers; the embedding is the sequential semantics
  of each method body.
* A Prometheus gauge or counter holds a `float64`; the handlers only ever store
  `float64(n)` for an `int` `n` or add `1`, and the model keeps that integer.
-/

namespace Prometric

/-! ## Machine integers and `strconv.Itoa` -/

/-- Two's complement wrap of a mathematical integer into the range of a 64-bit Go `int`. -/
def wrapInt (x : Int) : Int := (x + 2 ^ 63) % 2 ^ 64 - 2 ^ 63

/-- Go `a + b` on `int`. -/
def addInt (a b : Int) : Int := wrapInt (a + b)

/-- Largest Go `int` (`math.MaxInt` on a 64-bit platform). -/
def maxInt : Int := 2 ^ 63 - 1

/-- Decimal rendering of an `int`, as `strconv.Itoa` does it. -/
def Itoa (i : Int) : String :=
  if i < 0 then "-" ++ Nat.repr i.natAbs else Nat.repr i.toNat

/-- Value of a decimal digit character. -/
def digitVal (c : Char) : Nat := c.toNat - 48

/-- Value of a string of decimal digits, most significant first. -/
def decodeDigits (cs : List Char) : Nat := cs.foldl (fun acc c => 10 * acc + digitVal c) 0

/-! ## `store.go` -/

/-- Constant `maxStoreLimits = 100 * 1000`. -/
def maxStoreLimits : Int := 100 * 1000

/-- Struct `Person`. -/
structure Person where
  ID : String
  FirstName : String
  LastName : String
  Email : String
  CreatedAt : String
  UpdatedAt : String
deriving DecidableEq, Repr

/-- The zero value `Person{}`. -/
def Person.zero : Person := ⟨"", "", "", "", "", ""⟩

/-- One key/value pair of the map. -/
abbrev Entry := Sigma (fun _ : String => Person)

/-- Struct `store` (the mutex carries no data). -/
structure store where
  records : AList (fun _ : String => Person)

/-- Function `newStore`. -/
def newStore : store := ⟨∅⟩

/-- The order in which one `range` over the map visits its entries: any
rearrangement of them. -/
structure IterOrder where
  visit : List Entry → List Entry
  perm : ∀ l, (visit l).Perm l

/-- The order that visits the entries as they are laid out. -/
def IterOrder.asStored : IterOrder := ⟨id, fun l => List.Perm.refl l⟩

/-- Function `lo.Slice(collection, start, end)` of the dependency `github.com/samber/lo`:
a copy of `collection[start:end]` that clamps out-of-range bounds instead of panicking. -/
def Slice {α : Type} (collection : List α) (start stop : Int) : List α :=
  let size : Int := collection.length
  if start ≥ stop then []
  else
    let start := if start > size then size else start
    let start := if start < 0 then 0 else start
    let stop := if stop > size then size else stop
    let stop := if stop < 0 then 0 else stop
    (collection.drop start.toNat).take (stop.toNat - start.toNat)

/-- Method `store.list`. -/
def store.list (s : store) (order : IterOrder) (start count : Int) : List Person :=
  let presons := (order.visit s.records.entries).map (fun e => e.2)
  Slice presons start (addInt start count)

/-- Method `store.get`: the comma-ok map read. -/
def store.get (s : store) (id : String) : Person × Bool :=
  match s.records.lookup id with
  | some p => (p, true)
  | none => (Person.zero, false)

/-- Method `store.create`; `nextId` is the package-level counter, returned updated. -/
def store.create (s : store) (nextId : Int) (p : Person) (now : String) :
    Person × store × Int :=
  let id := Itoa nextId
  let nextId := addInt nextId 1
  let p := { p with ID := id }
  let p := { p with CreatedAt := now }
  let p := { p with UpdatedAt := now }
  (p, ⟨s.records.insert id p⟩, nextId)

/-- Method `store.update`. -/
def store.update (s : store) (id : String) (p : Person) (now : String) :
    (Person × Bool) × store :=
  match s.records.lookup id with
  | none => ((Person.zero, false), s)
  | some existing =>
    let existing := if p.FirstName ≠ "" then { existing with FirstName := p.FirstName } else existing
    let existing := if p.LastName ≠ "" then { existing with LastName := p.LastName } else existing
    let existing := if p.Email ≠ "" then { existing with Email := p.Email } else existing
    let existing := { existing with UpdatedAt := now }
    ((existing, true), ⟨s.records.insert id existing⟩)

/-- Method `store.delete`. -/
def store.delete (s : store) (id : String) : Bool × store :=
  match s.records.lookup id with
  | none => (false, s)
  | some _ => (true, ⟨s.records.erase id⟩)

/-- Method `store.count`: `len(s.records)`. -/
def store.count (s : store) : Int := s.records.entries.length

/-! ## The process state and runs of store operations -/

/-- The mutable state `store.go` works on: the package variable `nextId` and the store. -/
structure Proc where
  nextId : Int
  s : store

/-- A freshly started process: `nextId = 0`, `newStore()`. -/
def Proc.fresh : Proc := ⟨0, newStore⟩

/-- One mutating call on the store. -/
inductive Op where
  | create (p : Person) (now : String)
  | update (id : String) (p : Person) (now : String)
  | delete (id : String)

/-- State after one call. -/
def Op.next (pr : Proc) : Op → Proc
  | .create p now => let r := pr.s.create pr.nextId p now; ⟨r.2.2, r.2.1⟩
  | .update id p now => ⟨pr.nextId, (pr.s.update id p now).2⟩
  | .delete id => ⟨pr.nextId, (pr.s.delete id).2⟩

/-- The record a call of `create` returns (nothing for the other calls). -/
def Op.created (pr : Proc) : Op → Option Person
  | .create p now => some (pr.s.create pr.nextId p now).1
  | _ => none

/-- The records returned by the calls of `create` in a sequence of calls, in call order. -/
def createdBy (pr : Proc) : List Op → List Person
  | [] => []
  | op :: ops => (op.created pr).toList ++ createdBy (op.next pr) ops

/-! ## `metrics.go` and the handlers of `api.go` -/

/-- The metric variables of `metrics.go` the handlers write to.  A labelled
vector is a function of its label values, a histogram the list of its
observations (latest first). -/
structure Metrics where
  httpRequestsTotal : Nat → String → Nat
  httpRequestsInProgress : String → Int
  httpRequestDuration : List (String × String × Nat)
  personStoreCount : Int
  personCreatedTotal : Nat
  personDeletedTotal : Nat
  personNotFoundTotal : Nat
  personPayloadSize : List Nat

/-- Everything a handler can read or write: `nextId`, the store, the metrics. -/
structure World where
  nextId : Int
  s : store
  m : Metrics

/-- What a handler reads from one request and from its environment while it
serves it: the method, the `id` path variable, the value of the local `start`
once the query parameter is parsed (0 when absent), the outcome of reading and
of decoding the body (`none`: the JSON decoder failed), the clock, the time
spent in the handler and the order of the map iteration. -/
structure Request where
  Method : String
  id : String
  start : Int
  readFails : Bool
  bodySize : Nat
  decoded : Option Person
  now : String
  elapsed : Nat
  order : IterOrder

/-- Payload written to the response. -/
inductive Payload where
  | nothing
  | text (msg : String)
  | person (p : Person)
  | persons (l : List Person)

/-- The `responseRecorder`: the recorded status code (200 until `WriteHeader`
is called) and what was written. -/
structure Response where
  statusCode : Nat
  payload : Payload

/-- Function `http.Error(w, msg, code)`. -/
def httpError (msg : String) (code : Nat) : Response := ⟨code, .text msg⟩

/-- A handler body. -/
abbrev HandlerFunc := World → Request → World × Response

/-- Method `Add` of the gauge child `httpRequestsInProgress.WithLabelValues(method)`. -/
def Metrics.addInProgress (m : Metrics) (method : String) (d : Int) : Metrics :=
  let g := Function.update m.httpRequestsInProgress method (m.httpRequestsInProgress method + d)
  { m with httpRequestsInProgress := g }

/-- Method `Observe` of `httpRequestDuration.WithLabelValues(method, path)`. -/
def Metrics.observeDuration (m : Metrics) (method path : String) (duration : Nat) : Metrics :=
  { m with httpRequestDuration := (method, path, duration) :: m.httpRequestDuration }

/-- Method `Inc` of `httpRequestsTotal.WithLabelValues(code, method)`. -/
def Metrics.incRequests (m : Metrics) (code : Nat) (method : String) : Metrics :=
  let child := Function.update (m.httpRequestsTotal code) method (m.httpRequestsTotal code method + 1)
  { m with httpRequestsTotal := Function.update m.httpRequestsTotal code child }

/-- The world a handler body starts from inside `instrument`. -/
def entered (w : World) (r : Request) : World :=
  { w with m := w.m.addInProgress r.Method 1 }

/-- Function `instrument`. -/
def instrument (path : String) (handler : HandlerFunc) : HandlerFunc := fun w r =>
  let method := r.Method
  let w := { w with m := w.m.addInProgress method 1 }
  let (w, rr) := handler w r
  let duration := r.elapsed
  let w := { w with m := w.m.observeDuration method path duration }
  let w := { w with m := w.m.incRequests rr.statusCode method }
  let w := { w with m := w.m.addInProgress method (-1) }
  (w, rr)

/-- The closure `listPersonsHandler` passes to `instrument`. -/
def listPersonsHandler.body : HandlerFunc := fun w r =>
  let list := w.s.list r.order r.start 20
  let w := { w with m := { w.m with personStoreCount := (list.length : Int) } }
  (w, ⟨200, .persons list⟩)

/-- Function `listPersonsHandler`. -/
def listPersonsHandler : HandlerFunc :=
  instrument "/person/list" listPersonsHandler.body

/-- The closure `getPersonHandler` passes to `instrument`. -/
def getPersonHandler.body : HandlerFunc := fun w r =>
  let id := r.id
  let (p, ok) := w.s.get id
  if !ok then
    let rr := httpError "person not found" 404
    let w := { w with m := { w.m with personNotFoundTotal := w.m.personNotFoundTotal + 1 } }
    (w, rr)
  else
    let w := { w with m := { w.m with personStoreCount := w.s.count } }
    (w, ⟨200, .person p⟩)

/-- Function `getPersonHandler`. -/
def getPersonHandler : HandlerFunc :=
  instrument "/person/\x7bid\x7d" getPersonHandler.body

/-- The closure `createPersonHandler` passes to `instrument`. -/
def createPersonHandler.body : HandlerFunc := fun w r =>
  if r.readFails then (w, httpError "read error" 400)
  else
    let w := { w with m := { w.m with personPayloadSize := r.bodySize :: w.m.personPayloadSize } }
    match r.decoded with
    | none => (w, httpError "invalid JSON" 400)
    | some p =>
      if p.FirstName = "" ∨ p.LastName = "" then
        (w, httpError "first_name and last_name required" 400)
      else if w.s.count ≥ maxStoreLimits then
        (w, httpError "database full: cannot accept more records" 507)
      else
        let (created, s, nextId) := w.s.create w.nextId p r.now
        let w := { w with s := s, nextId := nextId }
        let w := { w with m := { w.m with personCreatedTotal := w.m.personCreatedTotal + 1 } }
        let w := { w with m := { w.m with personStoreCount := w.s.count } }
        (w, ⟨201, .person created⟩)

/-- Function `createPersonHandler`. -/
def createPersonHandler : HandlerFunc :=
  instrument "/person" createPersonHandler.body

/-- The closure `updatePersonHandler` passes to `instrument`. -/
def updatePersonHandler.body : HandlerFunc := fun w r =>
  let id := r.id
  match r.decoded with
  | none => (w, httpError "invalid JSON body" 400)
  | some p =>
    let ((updated, ok), s) := w.s.update id p r.now
    let w := { w with s := s }
    if !ok then (w, httpError "person not found" 404)
    else
      let w := { w with m := { w.m with personStoreCount := w.s.count } }
      (w, ⟨200, .person updated⟩)

/-- Function `updatePersonHandler`. -/
def updatePersonHandler : HandlerFunc :=
  instrument "/person/\x7bid\x7d" updatePersonHandler.body

/-- The closure `deletePersonHandler` passes to `instrument`. -/
def deletePersonHandler.body : HandlerFunc := fun w r =>
  let id := r.id
  let (ok, s) := w.s.delete id
  let w := { w with s := s }
  if !ok then (w, httpError "person not found" 404)
  else
    let w := { w with m := { w.m with personStoreCount := w.s.count } }
    let w := { w with m := { w.m with personDeletedTotal := w.m.personDeletedTotal + 1 } }
    (w, ⟨204, .nothing⟩)

/-- Function `deletePersonHandler`. -/
def deletePersonHandler : HandlerFunc :=
  instrument "/person/\x7bid\x7d" deletePersonHandler.body

/-- The five person routes registered in `ExposeApi`. -/
inductive Route where
  | list
  | create
  | get
  | update
  | delete
deriving DecidableEq

/-- The handler `ExposeApi` registers for a route. -/
def Route.handler : Route → HandlerFunc
  | .list => listPersonsHandler
  | .create => createPersonHandler
  | .get => getPersonHandler
  | .update => updatePersonHandler
  | .delete => deletePersonHandler

/-- A sequential run of request handlers: each request is served to completion
before the next one starts. -/
def serve (w : World) : List (Route × Request) → World
  | [] => w
  | (rt, r) :: rest => serve (rt.handler w r).1 rest

/-! ## Concrete states used below -/

/-- All metrics at their initial value. -/
def Metrics.zero : Metrics := ⟨fun _ _ => 0, fun _ => 0, [], 0, 0, 0, 0, []⟩

/-- The sample record `ExposeApi` seeds the store with. -/
def seedPerson : Person := ⟨"", "Asraful", "haque", "asraf@peek8.io", "", ""⟩

/-- The world right after `ExposeApi` seeded the store (at time `t0`): one record, "0". -/
def seededWorld : World :=
  ⟨(newStore.create 0 seedPerson "t0").2.2, (newStore.create 0 seedPerson "t0").2.1, Metrics.zero⟩

/-- The entries "0", "1", ..., "99999", as 100,000 calls of `create` leave them. -/
def fullEntries : List Entry :=
  (List.range 100000).map fun k : Nat =>
    ⟨Itoa (k : Int), ⟨Itoa (k : Int), "Asraful", "haque", "asraf@peek8.io", "t0", "t0"⟩⟩

/-- A world whose store holds the 100,000 records of `fullEntries`. -/
def fullWorld : World := ⟨100000, ⟨fullEntries.toAList⟩, Metrics.zero⟩

/-- A request for the person with id "42" (absent from the seeded store), carrying a
well-formed body that sets the last name. -/
def requestFor42 (method : String) : Request :=
  { Method := method, id := "42", start := 0, readFails := false, bodySize := 22,
    decoded := some ⟨"", "", "Smith", "", "", ""⟩, now := "t1", elapsed := 0,
    order := IterOrder.asStored }

/-- The request `GET /person/list?start=1`. -/
def listFromOne : Request :=
  { Method := "GET", id := "", start := 1, readFails := false, bodySize := 0,
    decoded := none, now := "t1", elapsed := 0, order := IterOrder.asStored }

/-- The request `POST /person` with the body `{}`: it decodes to the zero `Person`. -/
def postEmptyObject : Request :=
  { Method := "POST", id := "", start := 0, readFails := false, bodySize := 2,
    decoded := some Person.zero, now := "t1", elapsed := 0, order := IterOrder.asStored }

/-- The request `POST /person` with a body naming "Ada" "Lovelace". -/
def postAda : Request :=
  { Method := "POST", id := "", start := 0, readFails := false, bodySize := 44,
    decoded := some ⟨"", "Ada", "Lovelace", "", "", ""⟩, now := "t1", elapsed := 0,
    order := IterOrder.asStored }

/-! ## Facts about machine integers and decimal rendering -/

theorem wrapInt_of_range (x : Int) (h1 : -2 ^ 63 ≤ x) (h2 : x < 2 ^ 63) : wrapInt x = x := by
  unfold wrapInt
  omega

theorem digitVal_digitChar (d : Nat) (h : d < 10) : digitVal (Nat.digitChar d) = d := by
  interval_cases d <;> rfl

theorem toDigitsCore_append (fuel : Nat) : ∀ (n : Nat) (ds : List Char),
    Nat.toDigitsCore 10 fuel n ds = Nat.toDigitsCore 10 fuel n [] ++ ds := by
  induction fuel with
  | zero => intro n ds; simp [Nat.toDigitsCore]
  | succ f ih =>
    intro n ds
    simp only [Nat.toDigitsCore]
    by_cases h : n / 10 = 0
    · simp [h]
    · simp only [h, if_false]
      rw [ih (n / 10) (Nat.digitChar (n % 10) :: ds), ih (n / 10) [Nat.digitChar (n % 10)]]
      simp

theorem decodeDigits_append_singleton (xs : List Char) (c : Char) :
    decodeDigits (xs ++ [c]) = 10 * decodeDigits xs + digitVal c := by
  simp [decodeDigits, List.foldl_append]

theorem decodeDigits_toDigitsCore (fuel : Nat) : ∀ n : Nat, n < fuel →
    decodeDigits (Nat.toDigitsCore 10 fuel n []) = n := by
  induction fuel with
  | zero => intro n h; omega
  | succ f ih =>
    intro n hn
    simp only [Nat.toDigitsCore]
    by_cases h : n / 10 = 0
    · simp only [h, if_true]
      have hlt : n % 10 < 10 := Nat.mod_lt _ (by decide)
      simp [decodeDigits, digitVal_digitChar _ hlt]
      omega
    · simp only [h, if_false]
      rw [toDigitsCore_append, decodeDigits_append_singleton, ih (n / 10) (by omega),
        digitVal_digitChar _ (Nat.mod_lt _ (by decide))]
      omega

theorem repr_injective {a b : Nat} (h : Nat.repr a = Nat.repr b) : a = b := by
  have h2 : Nat.toDigits 10 a = Nat.toDigits 10 b := by
    have h3 := congrArg String.data h
    simpa [Nat.repr, List.asString] using h3
  have ha := decodeDigits_toDigitsCore (a + 1) a (by omega)
  have hb := decodeDigits_toDigitsCore (b + 1) b (by omega)
  unfold Nat.toDigits at h2
  rw [h2] at ha
  omega

theorem Itoa_natCast (n : Nat) : Itoa (n : Int) = Nat.repr n := by
  simp [Itoa]

theorem Itoa_natCast_injective {a b : Nat} (h : Itoa (a : Int) = Itoa (b : Int)) : a = b := by
  rw [Itoa_natCast, Itoa_natCast] at h
  exact repr_injective h
/-! ## Facts about the map -/

theorem count_eq_keys (s : store) : s.count = (s.records.keys.length : Int) := by
  simp [store.count, AList.keys, List.keys]

theorem keys_length_insert_mem (m : AList (fun _ : String => Person)) (id : String) (p : Person)
    (h : id ∈ m) : (m.insert id p).keys.length = m.keys.length := by
  have hk : id ∈ m.keys := AList.mem_keys.mp h
  have hpos : 0 < m.keys.length := List.length_pos_of_mem hk
  rw [AList.keys_insert, List.length_cons, List.length_erase_of_mem hk]
  omega

theorem keys_length_insert_not_mem (m : AList (fun _ : String => Person)) (id : String)
    (p : Person) (h : id ∉ m) : (m.insert id p).keys.length = m.keys.length + 1 := by
  have hk : id ∉ m.keys := fun hk => h (AList.mem_keys.mpr hk)
  rw [AList.keys_insert, List.length_cons, List.erase_of_not_mem hk]

theorem keys_length_insert_le (m : AList (fun _ : String => Person)) (id : String) (p : Person) :
    (m.insert id p).keys.length ≤ m.keys.length + 1 := by
  by_cases h : id ∈ m
  · rw [keys_length_insert_mem m id p h]; omega
  · rw [keys_length_insert_not_mem m id p h]

theorem keys_length_erase_mem (m : AList (fun _ : String => Person)) (id : String)
    (h : id ∈ m) : (m.erase id).keys.length + 1 = m.keys.length := by
  have hk : id ∈ m.keys := AList.mem_keys.mp h
  have hpos : 0 < m.keys.length := List.length_pos_of_mem hk
  rw [AList.keys_erase, List.length_erase_of_mem hk]
  omega

theorem get_of_lookup_some {s : store} {id : String} {p : Person}
    (h : s.records.lookup id = some p) : s.get id = (p, true) := by
  simp [store.get, h]

theorem get_of_lookup_none {s : store} {id : String}
    (h : s.records.lookup id = none) : s.get id = (Person.zero, false) := by
  simp [store.get, h]

theorem lookup_of_get_true {s : store} {id : String} {p : Person}
    (h : s.get id = (p, true)) : s.records.lookup id = some p := by
  unfold store.get at h
  cases hl : s.records.lookup id with
  | none => rw [hl] at h; simp at h
  | some q => rw [hl] at h; simp at h; rw [h]

theorem lookup_isSome_of_get_found {s : store} {id : String}
    (h : (s.get id).2 = true) : ∃ p, s.records.lookup id = some p := by
  unfold store.get at h
  cases hl : s.records.lookup id with
  | none => rw [hl] at h; simp at h
  | some q => exact ⟨q, rfl⟩

theorem get_congr {s t : store} {id : String}
    (h : t.records.lookup id = s.records.lookup id) : t.get id = s.get id := by
  simp [store.get, h]

/-! ## The store operations -/

/-- C2. For every store, counter value, input record and clock reading, `create`
returns the input's first name, last name and email unchanged, with the ID set to
the decimal string of the counter (whatever ID the input carried) and both
timestamps set to the clock reading; the counter advances by one (wrapping as a
Go `int`); and `get` of the returned ID on the resulting store returns exactly the
returned record, found. -/
theorem create_returns_stored_record (s : store) (nextId : Int) (p : Person) (now : String) :
    (s.create nextId p now).1.FirstName = p.FirstName ∧
    (s.create nextId p now).1.LastName = p.LastName ∧
    (s.create nextId p now).1.Email = p.Email ∧
    (s.create nextId p now).1.ID = Itoa nextId ∧
    (s.create nextId p now).1.CreatedAt = now ∧
    (s.create nextId p now).1.CreatedAt = (s.create nextId p now).1.UpdatedAt ∧
    (s.create nextId p now).2.2 = addInt nextId 1 ∧
    (s.create nextId p now).2.1.get (s.create nextId p now).1.ID
      = ((s.create nextId p now).1, true) := by
  refine ⟨rfl, rfl, rfl, rfl, rfl, rfl, rfl, ?_⟩
  apply get_of_lookup_some
  simp [store.create]

/-- C3. When `get id` finds the record `existing`, `update id patch` returns found
together with a record whose first name, last name and email are the patch's
where the patch's field is non-empty and the stored ones otherwise, whose ID and
creation time are the stored ones and whose update time is the clock reading;
afterwards `get id` returns that record, every other id reads as before and the
count is unchanged.  An all-empty patch changes only the update time; the patch
with only the last name "Smith" changes only the last name and the update time. -/
theorem update_present (s : store) (id : String) (existing patch : Person) (now : String)
    (h : s.get id = (existing, true)) :
    (s.update id patch now).1.2 = true ∧
    (s.update id patch now).1.1.FirstName
      = (if patch.FirstName ≠ "" then patch.FirstName else existing.FirstName) ∧
    (s.update id patch now).1.1.LastName
      = (if patch.LastName ≠ "" then patch.LastName else existing.LastName) ∧
    (s.update id patch now).1.1.Email
      = (if patch.Email ≠ "" then patch.Email else existing.Email) ∧
    (s.update id patch now).1.1.ID = existing.ID ∧
    (s.update id patch now).1.1.CreatedAt = existing.CreatedAt ∧
    (s.update id patch now).1.1.UpdatedAt = now ∧
    (s.update id patch now).2.get id = ((s.update id patch now).1.1, true) ∧
    (∀ other, other ≠ id → (s.update id patch now).2.get other = s.get other) ∧
    (s.update id patch now).2.count = s.count ∧
    (patch.FirstName = "" → patch.LastName = "" → patch.Email = "" →
      (s.update id patch now).1.1 = { existing with UpdatedAt := now }) ∧
    (patch.FirstName = "" → patch.LastName = "Smith" → patch.Email = "" →
      (s.update id patch now).1.1 = { existing with LastName := "Smith", UpdatedAt := now }) := by
  have hl : s.records.lookup id = some existing := lookup_of_get_true h
  have hmem : id ∈ s.records := AList.lookup_isSome.mp (by rw [hl]; rfl)
  unfold store.update
  rw [hl]
  dsimp only
  refine ⟨rfl, ?_, ?_, ?_, ?_, ?_, rfl, ?_, ?_, ?_, ?_, ?_⟩
  · by_cases h1 : patch.FirstName = "" <;> by_cases h2 : patch.LastName = "" <;>
      by_cases h3 : patch.Email = "" <;> simp [h1, h2, h3]
  · by_cases h1 : patch.FirstName = "" <;> by_cases h2 : patch.LastName = "" <;>
      by_cases h3 : patch.Email = "" <;> simp [h1, h2, h3]
  · by_cases h1 : patch.FirstName = "" <;> by_cases h2 : patch.LastName = "" <;>
      by_cases h3 : patch.Email = "" <;> simp [h1, h2, h3]
  · by_cases h1 : patch.FirstName = "" <;> by_cases h2 : patch.LastName = "" <;>
      by_cases h3 : patch.Email = "" <;> simp [h1, h2, h3]
  · by_cases h1 : patch.FirstName = "" <;> by_cases h2 : patch.LastName = "" <;>
      by_cases h3 : patch.Email = "" <;> simp [h1, h2, h3]
  · apply get_of_lookup_some
    simp
  · intro other hne
    apply get_congr
    exact AList.lookup_insert_ne hne
  · rw [count_eq_keys, count_eq_keys, keys_length_insert_mem _ _ _ hmem]
  · intro h1 h2 h3
    simp [h1, h2, h3]
  · intro h1 h2 h3
    simp [h1, h2, h3]

/-- Witness for C3: the seeded record "0" patched with last name "Smith" only. -/
theorem update_present_witness :
    (store.mk (AList.insert "0" ⟨"0", "Asraful", "haque", "asraf@peek8.io", "t0", "t0"⟩ ∅)).get "0"
      = (⟨"0", "Asraful", "haque", "asraf@peek8.io", "t0", "t0"⟩, true) ∧
    ((store.mk (AList.insert "0" ⟨"0", "Asraful", "haque", "asraf@peek8.io", "t0", "t0"⟩ ∅)).update
      "0" ⟨"", "", "Smith", "", "", ""⟩ "t1").1.1
      = ⟨"0", "Asraful", "Smith", "asraf@peek8.io", "t0", "t1"⟩ :=
  ⟨by decide,
   (update_present _ "0" ⟨"0", "Asraful", "haque", "asraf@peek8.io", "t0", "t0"⟩
      ⟨"", "", "Smith", "", "", ""⟩ "t1" (by decide)).2.2.2.2.2.2.2.2.2.2.2 rfl rfl rfl⟩

/-- C4. For an id that is not a key of the map, `get`, `update` (for every patch
and clock reading) and `delete` report not found, and the process state after
the call (records, hence count, and the counter `nextId`) is the state before. -/
theorem absent_id_no_effect (pr : Proc) (id : String) (h : id ∉ pr.s.records) :
    pr.s.get id = (Person.zero, false) ∧
    (∀ patch now, (pr.s.update id patch now).1 = (Person.zero, false) ∧
      (pr.s.update id patch now).2 = pr.s ∧
      (pr.s.update id patch now).2.count = pr.s.count ∧
      (Op.update id patch now).next pr = pr) ∧
    (pr.s.delete id).1 = false ∧
    (pr.s.delete id).2 = pr.s ∧
    (pr.s.delete id).2.count = pr.s.count ∧
    (Op.delete id).next pr = pr := by
  have hl : pr.s.records.lookup id = none := AList.lookup_eq_none.mpr h
  have hu : ∀ patch now, pr.s.update id patch now = ((Person.zero, false), pr.s) := by
    intro patch now
    unfold store.update
    rw [hl]
  have hd : pr.s.delete id = (false, pr.s) := by
    unfold store.delete
    rw [hl]
  refine ⟨get_of_lookup_none hl, ?_, ?_, ?_, ?_, ?_⟩
  · intro patch now
    simp [hu, Op.next]
  · rw [hd]
  · rw [hd]
  · rw [hd]
  · simp [hd, Op.next]

/-- Witness for C4: id "7" on a process holding only the seeded record "0". -/
theorem absent_id_no_effect_witness :
    "7" ∉ (Proc.mk 1 seededWorld.s).s.records ∧
    (Proc.mk 1 seededWorld.s).s.get "7" = (Person.zero, false) ∧
    (Op.delete "7").next (Proc.mk 1 seededWorld.s) = Proc.mk 1 seededWorld.s :=
  ⟨by decide,
   (absent_id_no_effect (Proc.mk 1 seededWorld.s) "7" (by decide)).1,
   (absent_id_no_effect (Proc.mk 1 seededWorld.s) "7" (by decide)).2.2.2.2.2⟩

/-- C5. When `get id` finds a record, `delete id` returns true; afterwards `get id`
reports not found, the count is one less than before, and every other id reads
exactly as before. -/
theorem delete_present (s : store) (id : String) (h : (s.get id).2 = true) :
    (s.delete id).1 = true ∧
    (s.delete id).2.get id = (Person.zero, false) ∧
    (s.delete id).2.count = s.count - 1 ∧
    (∀ other, other ≠ id → (s.delete id).2.get other = s.get other) := by
  obtain ⟨p, hl⟩ := lookup_isSome_of_get_found h
  have hmem : id ∈ s.records := AList.lookup_isSome.mp (by rw [hl]; rfl)
  have hd : s.delete id = (true, ⟨s.records.erase id⟩) := by
    unfold store.delete
    rw [hl]
  rw [hd]
  refine ⟨rfl, ?_, ?_, ?_⟩
  · exact get_of_lookup_none (AList.lookup_erase id s.records)
  · rw [count_eq_keys, count_eq_keys]
    have := keys_length_erase_mem s.records id hmem
    dsimp only
    omega
  · intro other hne
    exact get_congr (AList.lookup_erase_ne hne)

/-- Witness for C5: deleting "0" from a store holding "0" and "1". -/
theorem delete_present_witness :
    ((store.mk (AList.insert "1" ⟨"1", "B", "C", "", "t1", "t1"⟩
        (AList.insert "0" ⟨"0", "Asraful", "haque", "asraf@peek8.io", "t0", "t0"⟩ ∅))).get
      "0").2 = true ∧
    ((store.mk (AList.insert "1" ⟨"1", "B", "C", "", "t1", "t1"⟩
        (AList.insert "0" ⟨"0", "Asraful", "haque", "asraf@peek8.io", "t0", "t0"⟩ ∅))).delete
      "0").2.count = 1 :=
  ⟨by decide,
   (delete_present
    (store.mk (AList.insert "1" ⟨"1", "B", "C", "", "t1", "t1"⟩
        (AList.insert "0" ⟨"0", "Asraful", "haque", "asraf@peek8.io", "t0", "t0"⟩ ∅)))
    "0" (by decide)).2.2.1.trans (by decide)⟩

/-! ## Identifier assignment -/

theorem wrapInt_succ (x : Int) : wrapInt (wrapInt x + 1) = wrapInt (x + 1) := by
  unfold wrapInt
  omega

/-- The IDs handed out by any sequence of calls, without any bound on its length:
the k-th call of `create` after a state whose counter is `wrapInt n` returns the
decimal string of `wrapInt (n + k)`. -/
theorem createdBy_ids_wrap (ops : List Op) : ∀ (pr : Proc) (n : Nat),
    pr.nextId = wrapInt (n : Int) →
    (createdBy pr ops).map Person.ID
      = (List.range' n (createdBy pr ops).length).map (fun k : Nat => Itoa (wrapInt (k : Int))) := by
  induction ops with
  | nil => intro pr n _; simp [createdBy]
  | cons op ops ih =>
    intro pr n hn
    cases op with
    | create p now =>
      have hlen : (createdBy pr (Op.create p now :: ops)).length
          = (createdBy ((Op.create p now).next pr) ops).length + 1 := by
        simp [createdBy, Op.created]
      have hcons : (createdBy pr (Op.create p now :: ops)).map Person.ID
          = Itoa (wrapInt (n : Int))
            :: (createdBy ((Op.create p now).next pr) ops).map Person.ID := by
        simp [createdBy, Op.created, store.create, hn]
      have hnext : ((Op.create p now).next pr).nextId = wrapInt ((n + 1 : Nat) : Int) := by
        simp only [Op.next, store.create, addInt, hn]
        rw [wrapInt_succ]
        push_cast
        rfl
      rw [hcons, hlen, List.range'_succ, List.map_cons, ih _ (n + 1) hnext]
    | update id p now =>
      have hsame : createdBy pr (Op.update id p now :: ops)
          = createdBy ((Op.update id p now).next pr) ops := by
        simp [createdBy, Op.created]
      rw [hsame]
      exact ih _ n (by simpa [Op.next] using hn)
    | delete id =>
      have hsame : createdBy pr (Op.delete id :: ops)
          = createdBy ((Op.delete id).next pr) ops := by
        simp [createdBy, Op.created]
      rw [hsame]
      exact ih _ n (by simpa [Op.next] using hn)

theorem createdBy_ids_from (ops : List Op) (pr : Proc) (n : Nat) (hn : pr.nextId = (n : Int))
    (hb : n + (createdBy pr ops).length ≤ 2 ^ 63) :
    (createdBy pr ops).map Person.ID
      = (List.range' n (createdBy pr ops).length).map (fun k : Nat => Itoa (k : Int)) := by
  have hlt : (n : Int) < 2 ^ 63 ∨ (createdBy pr ops).length = 0 := by omega
  rcases hlt with hlt | hz
  · rw [createdBy_ids_wrap ops pr n (by rw [hn, wrapInt_of_range] <;> omega)]
    apply List.map_congr_left
    intro k hk
    rw [List.mem_range'_1] at hk
    rw [wrapInt_of_range] <;> omega
  · have hnil : createdBy pr ops = [] := List.length_eq_zero.mp hz
    simp [hnil]

/-- C1. From a fresh process (`nextId = 0`, empty store), in every sequence of
`create`, `update` and `delete` calls containing at most 2^63 calls of `create`
(no Go `int` counter can count further), the k-th call of `create` returns the
record whose ID is the decimal string of k; so the IDs handed out are
0, 1, 2, ... in call order and no ID is handed out twice, whatever updates and
deletes are interleaved. -/
theorem create_assigns_sequential_ids (ops : List Op)
    (hbound : (createdBy Proc.fresh ops).length ≤ 2 ^ 63) :
    (createdBy Proc.fresh ops).map Person.ID
      = (List.range (createdBy Proc.fresh ops).length).map (fun k : Nat => Itoa (k : Int)) ∧
    (∀ k, k < (createdBy Proc.fresh ops).length →
      ((createdBy Proc.fresh ops).map Person.ID)[k]? = some (Itoa (k : Int))) ∧
    (∀ i j, i < j → j < (createdBy Proc.fresh ops).length →
      ((createdBy Proc.fresh ops).map Person.ID)[i]?
        ≠ ((createdBy Proc.fresh ops).map Person.ID)[j]?) ∧
    ((createdBy Proc.fresh ops).map Person.ID).Nodup := by
  have hids := createdBy_ids_from ops Proc.fresh 0 rfl (by omega)
  rw [← List.range_eq_range'] at hids
  have hget : ∀ k, k < (createdBy Proc.fresh ops).length →
      ((createdBy Proc.fresh ops).map Person.ID)[k]? = some (Itoa (k : Int)) := by
    intro k hk
    rw [hids]
    simp [hk]
  refine ⟨hids, hget, ?_, ?_⟩
  · intro i j hij hj heq
    rw [hget i (by omega), hget j hj] at heq
    have := Itoa_natCast_injective (Option.some.inj heq)
    omega
  · rw [hids]
    apply List.Nodup.map
    · intro a b hab
      exact Itoa_natCast_injective hab
    · exact List.nodup_range _

/-- Witness for C1: create, create, delete "0", create hands out "0", "1", "2". -/
theorem create_assigns_sequential_ids_witness :
    (createdBy Proc.fresh
        [Op.create ⟨"", "A", "B", "", "", ""⟩ "t0", Op.create ⟨"", "C", "D", "", "", ""⟩ "t1",
         Op.delete "0", Op.create ⟨"", "E", "F", "", "", ""⟩ "t2"]).length ≤ 2 ^ 63 ∧
    (createdBy Proc.fresh
        [Op.create ⟨"", "A", "B", "", "", ""⟩ "t0", Op.create ⟨"", "C", "D", "", "", ""⟩ "t1",
         Op.delete "0", Op.create ⟨"", "E", "F", "", "", ""⟩ "t2"]).map Person.ID
      = ["0", "1", "2"] :=
  ⟨by decide,
   (create_assigns_sequential_ids
      [Op.create ⟨"", "A", "B", "", "", ""⟩ "t0", Op.create ⟨"", "C", "D", "", "", ""⟩ "t1",
       Op.delete "0", Op.create ⟨"", "E", "F", "", "", ""⟩ "t2"] (by decide)).1.trans (by decide)⟩

/-! ## Listing -/

theorem Slice_eq_window {α : Type} (xs : List α) (start stop : Int) :
    ∃ a b : Nat, Slice xs start stop = (xs.drop a).take b := by
  unfold Slice
  by_cases h : start ≥ stop
  · exact ⟨0, 0, by simp [h]⟩
  · simp only [h, if_false]
    exact ⟨_, _, rfl⟩

theorem Slice_length {α : Type} (xs : List α) (start stop : Int) (h0 : 0 ≤ start) :
    ((Slice xs start stop).length : Int) = max 0 (min stop xs.length - start) := by
  unfold Slice
  by_cases h : start ≥ stop
  · simp only [h, if_true, List.length_nil]
    omega
  · simp only [h, if_false, List.length_take, List.length_drop]
    split_ifs <;> omega

theorem Slice_map {α β : Type} (f : α → β) (xs : List α) (start stop : Int) :
    Slice (xs.map f) start stop = (Slice xs start stop).map f := by
  unfold Slice
  by_cases h : start ≥ stop
  · simp [h]
  · simp only [h, if_false, List.length_map, List.map_take, List.map_drop]

theorem list_entries (s : store) (order : IterOrder) (start count : Int) :
    ∃ es : List Entry, es.map (fun e => e.2) = s.list order start count ∧
      (es.map (fun e => e.1)).Nodup ∧ ∀ e ∈ es, s.get e.1 = (e.2, true) := by
  refine ⟨Slice (order.visit s.records.entries) start (addInt start count), ?_, ?_, ?_⟩
  · simp [store.list, Slice_map]
  · obtain ⟨a, b, hab⟩ := Slice_eq_window (order.visit s.records.entries) start (addInt start count)
    rw [hab]
    have hk : (s.records.entries.map (fun e => e.1)).Nodup := s.records.keys_nodup
    have hnd : ((order.visit s.records.entries).map (fun e => e.1)).Nodup :=
      ((order.perm s.records.entries).map (fun e => e.1)).nodup_iff.mpr hk
    have hs : (((order.visit s.records.entries).drop a).take b).Sublist
        (order.visit s.records.entries) :=
      (List.take_sublist _ _).trans (List.drop_sublist _ _)
    exact (hs.map (fun e => e.1)).nodup hnd
  · intro e he
    obtain ⟨a, b, hab⟩ := Slice_eq_window (order.visit s.records.entries) start (addInt start count)
    rw [hab] at he
    have h1 : e ∈ order.visit s.records.entries :=
      List.mem_of_mem_drop (List.mem_of_mem_take he)
    have h2 : e ∈ s.records.entries := (order.perm s.records.entries).mem_iff.mp h1
    apply get_of_lookup_some
    have h3 : (⟨e.1, e.2⟩ : Entry) ∈ s.records.entries := by simpa using h2
    have := (AList.mem_lookup_iff (s := s.records) (a := e.1) (b := e.2)).mpr h3
    simpa using this

theorem list_length_of_no_overflow (s : store) (order : IterOrder) (start count : Int)
    (h0 : 0 ≤ start) (h1 : 0 ≤ count) (hsum : start + count ≤ maxInt) :
    ((s.list order start count).length : Int) = min count (max 0 (s.count - start)) := by
  have hadd : addInt start count = start + count := by
    unfold addInt
    apply wrapInt_of_range <;> unfold maxInt at hsum <;> omega
  unfold store.list
  simp only [hadd]
  rw [Slice_length _ _ _ h0]
  simp only [List.length_map, (order.perm s.records.entries).length_eq, store.count]
  omega

theorem list_past_end (s : store) (order : IterOrder) (start count : Int)
    (hn : s.count ≤ start) : s.list order start count = [] := by
  have h0 : 0 ≤ start := le_trans (by simp [store.count]) hn
  apply List.eq_nil_of_length_eq_zero
  have hlen := Slice_length ((order.visit s.records.entries).map (fun e => e.2)) start
    (addInt start count) h0
  simp only [List.length_map, (order.perm s.records.entries).length_eq] at hlen
  simp only [store.list]
  unfold store.count at hn
  omega

theorem list_all (s : store) (order : IterOrder) (hn : s.count ≤ maxInt) :
    ((s.list order 0 s.count).length : Int) = s.count := by
  have h := list_length_of_no_overflow s order 0 s.count (le_refl 0) (by simp [store.count])
    (by omega)
  rw [h]
  have : 0 ≤ s.count := by simp [store.count]
  omega

/-- C6, amended.  For `0 ≤ start`, `0 ≤ count` and `start + count ≤ math.MaxInt`
(the end offset `start + count` does not overflow), `list(start, count)` on a
store of `n = count()` records returns exactly `min(count, max(0, n - start))`
records; they are the values of entries of the map with pairwise distinct keys,
each read back by `get`.  Whatever `count` is, the result is empty when
`start ≥ n`; and `list(0, n)` has exactly `n` records. -/
theorem list_without_overflow (s : store) (order : IterOrder) (start count : Int)
    (h0 : 0 ≤ start) (h1 : 0 ≤ count) (hsum : start + count ≤ maxInt) :
    ((s.list order start count).length : Int) = min count (max 0 (s.count - start)) ∧
    (∃ es : List Entry, es.map (fun e => e.2) = s.list order start count ∧
      (es.map (fun e => e.1)).Nodup ∧ ∀ e ∈ es, s.get e.1 = (e.2, true)) ∧
    (s.count ≤ start → ∀ c : Int, s.list order start c = []) ∧
    (s.count ≤ maxInt → ((s.list order 0 s.count).length : Int) = s.count) :=
  ⟨list_length_of_no_overflow s order start count h0 h1 hsum,
   list_entries s order start count,
   fun hn c => list_past_end s order start c hn,
   list_all s order⟩

/-- Witness for C6: the first page (`start = 0`, `count = 20`) of a one-record store. -/
theorem list_without_overflow_witness :
    (0 : Int) ≤ 0 ∧ (0 : Int) ≤ 20 ∧ (0 : Int) + 20 ≤ maxInt ∧
    (((store.mk (AList.insert "0" ⟨"0", "Asraful", "haque", "asraf@peek8.io", "t0", "t0"⟩ ∅)).list
      IterOrder.asStored 0 20).length : Int) = 1 :=
  ⟨by decide, by decide, by decide,
   (list_without_overflow
      (store.mk (AList.insert "0" ⟨"0", "Asraful", "haque", "asraf@peek8.io", "t0", "t0"⟩ ∅))
      IterOrder.asStored 0 20 (by decide) (by decide) (by decide)).1.trans (by decide)⟩

/-- C6 as stated fails.  On a store of two records `list(1, math.MaxInt)`
computes the end offset `1 + math.MaxInt`, which wraps to `math.MinInt`, so the
`start >= end` guard of `lo.Slice` returns the empty slice, where
`min(count, max(0, n - start))` is 1. -/
theorem list_overflow_returns_nothing :
    (store.mk (AList.insert "1" ⟨"1", "B", "C", "", "t1", "t1"⟩
        (AList.insert "0" ⟨"0", "Asraful", "haque", "asraf@peek8.io", "t0", "t0"⟩ ∅))).count = 2 ∧
    addInt 1 maxInt = -2 ^ 63 ∧
    (store.mk (AList.insert "1" ⟨"1", "B", "C", "", "t1", "t1"⟩
        (AList.insert "0" ⟨"0", "Asraful", "haque", "asraf@peek8.io", "t0", "t0"⟩ ∅))).list
      IterOrder.asStored 1 maxInt = [] ∧
    min maxInt (max 0 (2 - 1)) = 1 := by
  refine ⟨by decide, by decide, ?_, by decide⟩
  decide

/-! ## The handlers -/

theorem instrument_s (path : String) (h : HandlerFunc) (w : World) (r : Request) :
    (instrument path h w r).1.s = (h (entered w r) r).1.s := rfl

theorem instrument_response (path : String) (h : HandlerFunc) (w : World) (r : Request) :
    (instrument path h w r).2 = (h (entered w r) r).2 := rfl

theorem get_body_store (w : World) (r : Request) :
    (getPersonHandler.body w r).1.s = w.s ∧ (getPersonHandler.body w r).1.nextId = w.nextId := by
  unfold getPersonHandler.body
  cases hg : w.s.get r.id with
  | mk p ok => cases ok <;> simp [hg]

theorem get_body_absent (w : World) (r : Request) (h : r.id ∉ w.s.records) :
    (getPersonHandler.body w r).1.m.personNotFoundTotal = w.m.personNotFoundTotal + 1 ∧
    (getPersonHandler.body w r).2.statusCode = 404 := by
  have hg : w.s.get r.id = (Person.zero, false) :=
    get_of_lookup_none (AList.lookup_eq_none.mpr h)
  simp [getPersonHandler.body, hg, httpError]

theorem update_body_notFound (w : World) (r : Request) :
    (updatePersonHandler.body w r).1.m.personNotFoundTotal = w.m.personNotFoundTotal := by
  unfold updatePersonHandler.body
  cases hd : r.decoded with
  | none => rfl
  | some p =>
    cases hu : w.s.update r.id p r.now with
    | mk res s' =>
      cases res with
      | mk updated ok => cases ok <;> simp [hu]

theorem delete_body_notFound (w : World) (r : Request) :
    (deletePersonHandler.body w r).1.m.personNotFoundTotal = w.m.personNotFoundTotal := by
  unfold deletePersonHandler.body
  cases hd : w.s.delete r.id with
  | mk ok s' => cases ok <;> simp [hd]

theorem update_body_absent_status (w : World) (r : Request) (p : Person)
    (hd : r.decoded = some p) (h : r.id ∉ w.s.records) :
    (updatePersonHandler.body w r).2.statusCode = 404 := by
  have hu : w.s.update r.id p r.now = ((Person.zero, false), w.s) := by
    unfold store.update
    rw [AList.lookup_eq_none.mpr h]
  simp [updatePersonHandler.body, hd, hu, httpError]

theorem delete_body_absent_status (w : World) (r : Request) (h : r.id ∉ w.s.records) :
    (deletePersonHandler.body w r).2.statusCode = 404 := by
  have hu : w.s.delete r.id = (false, w.s) := by
    unfold store.delete
    rw [AList.lookup_eq_none.mpr h]
  simp [deletePersonHandler.body, hu, httpError]

theorem update_count (s : store) (id : String) (p : Person) (now : String) :
    (s.update id p now).2.count = s.count := by
  unfold store.update
  cases hl : s.records.lookup id with
  | none => rfl
  | some existing =>
    have hmem : id ∈ s.records := AList.lookup_isSome.mp (by rw [hl]; rfl)
    simp only [count_eq_keys, keys_length_insert_mem _ _ _ hmem]

theorem delete_count_le (s : store) (id : String) :
    (s.delete id).2.count ≤ s.count := by
  unfold store.delete
  cases hl : s.records.lookup id with
  | none => exact le_refl _
  | some existing =>
    have hmem : id ∈ s.records := AList.lookup_isSome.mp (by rw [hl]; rfl)
    have := keys_length_erase_mem s.records id hmem
    simp only [count_eq_keys]
    omega

theorem create_count_le (s : store) (nextId : Int) (p : Person) (now : String) :
    (s.create nextId p now).2.1.count ≤ s.count + 1 := by
  have := keys_length_insert_le s.records (Itoa nextId)
    { ID := Itoa nextId, FirstName := p.FirstName, LastName := p.LastName, Email := p.Email,
      CreatedAt := now, UpdatedAt := now }
  simp only [store.create, count_eq_keys]
  omega

theorem update_body_count (w : World) (r : Request) :
    (updatePersonHandler.body w r).1.s.count = w.s.count := by
  unfold updatePersonHandler.body
  cases hd : r.decoded with
  | none => rfl
  | some p =>
    have hc := update_count w.s r.id p r.now
    cases hu : w.s.update r.id p r.now with
    | mk res s' =>
      rw [hu] at hc
      cases res with
      | mk updated ok => cases ok <;> simpa [hu] using hc

theorem delete_body_count (w : World) (r : Request) :
    (deletePersonHandler.body w r).1.s.count ≤ w.s.count := by
  unfold deletePersonHandler.body
  have hc := delete_count_le w.s r.id
  cases hd : w.s.delete r.id with
  | mk ok s' =>
    rw [hd] at hc
    cases ok <;> simpa [hd] using hc

theorem create_body_full (w : World) (r : Request) (h : maxStoreLimits ≤ w.s.count) :
    ((createPersonHandler.body w r).2.statusCode = 507 ∨
      (createPersonHandler.body w r).2.statusCode = 400) ∧
    (createPersonHandler.body w r).1.s = w.s ∧
    (createPersonHandler.body w r).1.nextId = w.nextId ∧
    (r.readFails = false → ∀ p, r.decoded = some p → p.FirstName ≠ "" → p.LastName ≠ "" →
      (createPersonHandler.body w r).2.statusCode = 507) := by
  unfold createPersonHandler.body
  cases hr : r.readFails with
  | true => simp [httpError]
  | false =>
    cases hd : r.decoded with
    | none => simp [httpError]
    | some p =>
      by_cases h1 : p.FirstName = ""
      · simp [h1, httpError]
      · by_cases h2 : p.LastName = ""
        · simp [h2, httpError]
        · simp [h1, h2, h, httpError]

theorem create_body_malformed (w : World) (r : Request) :
    (r.readFails = true → (createPersonHandler.body w r).2.statusCode = 400) ∧
    (r.readFails = false → r.decoded = none →
      (createPersonHandler.body w r).2.statusCode = 400) ∧
    (r.readFails = false → ∀ p, r.decoded = some p → p.FirstName = "" ∨ p.LastName = "" →
      (createPersonHandler.body w r).2.statusCode = 400) := by
  unfold createPersonHandler.body
  refine ⟨?_, ?_, ?_⟩
  · intro hr
    simp [hr, httpError]
  · intro hr hd
    simp [hr, hd, httpError]
  · intro hr p hd hp
    simp [hr, hd, hp, httpError]

theorem create_body_accepted (w : World) (r : Request)
    (h : (createPersonHandler.body w r).2.statusCode = 201) : w.s.count < maxStoreLimits := by
  unfold createPersonHandler.body at h
  cases hr : r.readFails with
  | true => simp [hr, httpError] at h
  | false =>
    cases hd : r.decoded with
    | none => simp [hr, hd, httpError] at h
    | some p =>
      by_cases h1 : p.FirstName = ""
      · simp [hr, hd, h1, httpError] at h
      · by_cases h2 : p.LastName = ""
        · simp [hr, hd, h2, httpError] at h
        · by_cases h3 : maxStoreLimits ≤ w.s.count
          · simp [hr, hd, h1, h2, h3, httpError] at h
          · exact lt_of_not_le h3

theorem create_body_count (w : World) (r : Request) (h : w.s.count ≤ maxStoreLimits) :
    (createPersonHandler.body w r).1.s.count ≤ maxStoreLimits := by
  unfold createPersonHandler.body
  cases hr : r.readFails with
  | true => simpa using h
  | false =>
    cases hd : r.decoded with
    | none => simpa using h
    | some p =>
      by_cases h1 : p.FirstName = ""
      · simpa [h1] using h
      · by_cases h2 : p.LastName = ""
        · simpa [h2] using h
        · by_cases h3 : maxStoreLimits ≤ w.s.count
          · simpa [h1, h2, h3] using h
          · have hc := create_count_le w.s w.nextId p r.now
            have h4 : w.s.count < maxStoreLimits := lt_of_not_le h3
            have h5 : (w.s.create w.nextId p r.now).2.1.count ≤ maxStoreLimits := by omega
            simpa [h1, h2, h3] using h5

theorem handler_count (rt : Route) (w : World) (r : Request) (h : w.s.count ≤ maxStoreLimits) :
    (rt.handler w r).1.s.count ≤ maxStoreLimits := by
  cases rt with
  | list => exact h
  | create =>
    show (instrument "/person" createPersonHandler.body w r).1.s.count ≤ maxStoreLimits
    rw [instrument_s]
    exact create_body_count _ _ h
  | get =>
    show (instrument "/person/\x7bid\x7d" getPersonHandler.body w r).1.s.count ≤ maxStoreLimits
    rw [instrument_s, (get_body_store _ _).1]
    exact h
  | update =>
    show (instrument "/person/\x7bid\x7d" updatePersonHandler.body w r).1.s.count ≤ maxStoreLimits
    rw [instrument_s, update_body_count]
    exact h
  | delete =>
    show (instrument "/person/\x7bid\x7d" deletePersonHandler.body w r).1.s.count ≤ maxStoreLimits
    rw [instrument_s]
    exact le_trans (delete_body_count _ _) h

theorem serve_count (reqs : List (Route × Request)) : ∀ w : World,
    w.s.count ≤ maxStoreLimits → (serve w reqs).s.count ≤ maxStoreLimits := by
  induction reqs with
  | nil => intro w h; exact h
  | cons q rest ih =>
    intro w h
    obtain ⟨rt, r⟩ := q
    exact ih _ (handler_count rt w r h)

theorem dedupKeys_of_nodupKeys : ∀ (l : List Entry), l.NodupKeys → l.dedupKeys = l := by
  intro l
  induction l with
  | nil => intro _; rfl
  | cons x l ih =>
    intro h
    obtain ⟨hx, hl⟩ := List.nodupKeys_cons.mp h
    rw [List.dedupKeys_cons, ih hl, List.kinsert_def, List.kerase_of_not_mem_keys hx]

theorem fullEntries_nodupKeys : fullEntries.NodupKeys := by
  unfold List.NodupKeys List.keys fullEntries
  rw [List.map_map]
  apply List.Nodup.map
  · intro a b hab
    exact Itoa_natCast_injective hab
  · exact List.nodup_range _

theorem fullWorld_count : fullWorld.s.count = maxStoreLimits := by
  have h1 : fullWorld.s.records.entries = fullEntries :=
    (AList.entries_toAList fullEntries).trans (dedupKeys_of_nodupKeys _ fullEntries_nodupKeys)
  have h2 : fullEntries.length = 100000 := by
    unfold fullEntries
    rw [List.length_map, List.length_range]
  unfold store.count
  rw [h1, h2]
  rfl

/-- C7 as stated fails.  With 100,000 records stored, `POST /person` with the body
`{}` is rejected by the required-fields check, which precedes the capacity check:
the status is 400, not 507. -/
theorem full_store_bad_body_gets_400 :
    maxStoreLimits ≤ fullWorld.s.count ∧
    (createPersonHandler fullWorld postEmptyObject).2.statusCode = 400 ∧
    (createPersonHandler fullWorld postEmptyObject).2.statusCode ≠ 507 := by
  have hs : (createPersonHandler fullWorld postEmptyObject).2.statusCode = 400 := by
    show (instrument "/person" createPersonHandler.body fullWorld postEmptyObject).2.statusCode
      = 400
    rw [instrument_response]
    simp [createPersonHandler.body, postEmptyObject, Person.zero, httpError]
  refine ⟨le_of_eq fullWorld_count.symm, hs, ?_⟩
  rw [hs]
  decide

/-- C7, amended.  In every sequential run of request handlers that starts with at
most 100,000 records the store never holds more than 100,000 records.  A create
request that arrives while `count() >= 100000` is rejected without calling
`store.create` (records and counter unchanged): with status 400 when the body
cannot be read, cannot be decoded or lacks a first or last name, and with
status 507 when the body is read, decodes and carries both names.  A create
request answered 201 arrived while `count() < 100000`. -/
theorem capacity_ceiling :
    (∀ (w : World) (reqs : List (Route × Request)), w.s.count ≤ maxStoreLimits →
      (serve w reqs).s.count ≤ maxStoreLimits) ∧
    (∀ (w : World) (r : Request), maxStoreLimits ≤ w.s.count →
      ((createPersonHandler w r).2.statusCode = 507 ∨
        (createPersonHandler w r).2.statusCode = 400) ∧
      (createPersonHandler w r).1.s = w.s ∧
      (createPersonHandler w r).1.nextId = w.nextId ∧
      (r.readFails = true → (createPersonHandler w r).2.statusCode = 400) ∧
      (r.readFails = false → r.decoded = none →
        (createPersonHandler w r).2.statusCode = 400) ∧
      (r.readFails = false → ∀ p, r.decoded = some p → p.FirstName = "" ∨ p.LastName = "" →
        (createPersonHandler w r).2.statusCode = 400) ∧
      (r.readFails = false → ∀ p, r.decoded = some p → p.FirstName ≠ "" → p.LastName ≠ "" →
        (createPersonHandler w r).2.statusCode = 507)) ∧
    (∀ (w : World) (r : Request), (createPersonHandler w r).2.statusCode = 201 →
      w.s.count < maxStoreLimits) := by
  refine ⟨fun w reqs h => serve_count reqs w h, ?_, ?_⟩
  · intro w r h
    have hfull := create_body_full (entered w r) r h
    have hbad := create_body_malformed (entered w r) r
    exact ⟨hfull.1, hfull.2.1, hfull.2.2.1, hbad.1, hbad.2.1, hbad.2.2, hfull.2.2.2⟩
  · intro w r h
    exact create_body_accepted (entered w r) r h

/-- Witness for C7: on the full store a well-formed create request is answered 507
and leaves the store and the counter alone, and the create request with body `{}`
is answered 400; the well-formed request on the seeded store is answered 201. -/
theorem capacity_ceiling_witness :
    maxStoreLimits ≤ fullWorld.s.count ∧
    (createPersonHandler fullWorld postAda).2.statusCode = 507 ∧
    (createPersonHandler fullWorld postAda).1.s = fullWorld.s ∧
    (createPersonHandler fullWorld postAda).1.nextId = fullWorld.nextId ∧
    (createPersonHandler fullWorld postEmptyObject).2.statusCode = 400 ∧
    (createPersonHandler fullWorld postEmptyObject).1.s = fullWorld.s ∧
    (createPersonHandler seededWorld postAda).2.statusCode = 201 ∧
    seededWorld.s.count < maxStoreLimits :=
  ⟨le_of_eq fullWorld_count.symm,
   (capacity_ceiling.2.1 fullWorld postAda (le_of_eq fullWorld_count.symm)).2.2.2.2.2.2 rfl _ rfl
     (by decide) (by decide),
   (capacity_ceiling.2.1 fullWorld postAda (le_of_eq fullWorld_count.symm)).2.1,
   (capacity_ceiling.2.1 fullWorld postAda (le_of_eq fullWorld_count.symm)).2.2.1,
   (capacity_ceiling.2.1 fullWorld postEmptyObject
     (le_of_eq fullWorld_count.symm)).2.2.2.2.2.1 rfl _ rfl (Or.inl rfl),
   (capacity_ceiling.2.1 fullWorld postEmptyObject (le_of_eq fullWorld_count.symm)).2.1,
   by decide,
   capacity_ceiling.2.2 seededWorld postAda (by decide)⟩

/-! ## The not-found counter -/

theorem not_found_counter_by_handler (w : World) (r : Request) (h : r.id ∉ w.s.records) :
    ((getPersonHandler w r).2.statusCode = 404 ∧
      (getPersonHandler w r).1.m.personNotFoundTotal = w.m.personNotFoundTotal + 1) ∧
    ((∀ p, r.decoded = some p → (updatePersonHandler w r).2.statusCode = 404) ∧
      (updatePersonHandler w r).1.m.personNotFoundTotal = w.m.personNotFoundTotal) ∧
    ((deletePersonHandler w r).2.statusCode = 404 ∧
      (deletePersonHandler w r).1.m.personNotFoundTotal = w.m.personNotFoundTotal) :=
  ⟨⟨(get_body_absent (entered w r) r h).2, (get_body_absent (entered w r) r h).1⟩,
   ⟨fun p hd => update_body_absent_status (entered w r) r p hd h,
    update_body_notFound (entered w r) r⟩,
   ⟨delete_body_absent_status (entered w r) r h, delete_body_notFound (entered w r) r⟩⟩

/-- C8 at the failing input.  The id "42" is absent from the seeded store.  The get
handler answers 404 and increments `person_not_found_total`; the update handler
(with a well-formed body) and the delete handler answer 404 and leave the
counter at its value. -/
theorem update_delete_skip_not_found_counter :
    "42" ∉ seededWorld.s.records ∧
    seededWorld.m.personNotFoundTotal = 0 ∧
    (getPersonHandler seededWorld (requestFor42 "GET")).2.statusCode = 404 ∧
    (getPersonHandler seededWorld (requestFor42 "GET")).1.m.personNotFoundTotal = 1 ∧
    (updatePersonHandler seededWorld (requestFor42 "PUT")).2.statusCode = 404 ∧
    (updatePersonHandler seededWorld (requestFor42 "PUT")).1.m.personNotFoundTotal = 0 ∧
    (deletePersonHandler seededWorld (requestFor42 "DELETE")).2.statusCode = 404 ∧
    (deletePersonHandler seededWorld (requestFor42 "DELETE")).1.m.personNotFoundTotal = 0 := by
  refine ⟨by decide, by decide, by decide, by decide, by decide, by decide, by decide, by decide⟩

/-! ## The store-size gauge -/

theorem get_body_gauge (w : World) (r : Request) :
    (getPersonHandler.body w r).1.m.personStoreCount = w.m.personStoreCount ∨
    (getPersonHandler.body w r).1.m.personStoreCount = (getPersonHandler.body w r).1.s.count := by
  unfold getPersonHandler.body
  cases hg : w.s.get r.id with
  | mk p ok => cases ok <;> simp [hg]

theorem create_body_gauge (w : World) (r : Request) :
    (createPersonHandler.body w r).1.m.personStoreCount = w.m.personStoreCount ∨
    (createPersonHandler.body w r).1.m.personStoreCount
      = (createPersonHandler.body w r).1.s.count := by
  unfold createPersonHandler.body
  cases hr : r.readFails with
  | true => simp
  | false =>
    cases hd : r.decoded with
    | none => simp
    | some p =>
      by_cases h1 : p.FirstName = ""
      · simp [h1]
      · by_cases h2 : p.LastName = ""
        · simp [h2]
        · by_cases h3 : maxStoreLimits ≤ w.s.count
          · simp [h1, h2, h3]
          · simp [h1, h2, h3]

theorem update_body_gauge (w : World) (r : Request) :
    (updatePersonHandler.body w r).1.m.personStoreCount = w.m.personStoreCount ∨
    (updatePersonHandler.body w r).1.m.personStoreCount
      = (updatePersonHandler.body w r).1.s.count := by
  unfold updatePersonHandler.body
  cases hd : r.decoded with
  | none => simp
  | some p =>
    cases hu : w.s.update r.id p r.now with
    | mk res s' =>
      cases res with
      | mk updated ok => cases ok <;> simp [hu]

theorem delete_body_gauge (w : World) (r : Request) :
    (deletePersonHandler.body w r).1.m.personStoreCount = w.m.personStoreCount ∨
    (deletePersonHandler.body w r).1.m.personStoreCount
      = (deletePersonHandler.body w r).1.s.count := by
  unfold deletePersonHandler.body
  cases hd : w.s.delete r.id with
  | mk ok s' => cases ok <;> simp [hd]

theorem gauge_by_handler (w : World) (r : Request) :
    (listPersonsHandler w r).1.m.personStoreCount
      = ((w.s.list r.order r.start 20).length : Int) ∧
    ((getPersonHandler w r).1.m.personStoreCount = w.m.personStoreCount ∨
      (getPersonHandler w r).1.m.personStoreCount = (getPersonHandler w r).1.s.count) ∧
    ((createPersonHandler w r).1.m.personStoreCount = w.m.personStoreCount ∨
      (createPersonHandler w r).1.m.personStoreCount = (createPersonHandler w r).1.s.count) ∧
    ((updatePersonHandler w r).1.m.personStoreCount = w.m.personStoreCount ∨
      (updatePersonHandler w r).1.m.personStoreCount = (updatePersonHandler w r).1.s.count) ∧
    ((deletePersonHandler w r).1.m.personStoreCount = w.m.personStoreCount ∨
      (deletePersonHandler w r).1.m.personStoreCount = (deletePersonHandler w r).1.s.count) :=
  ⟨rfl, get_body_gauge (entered w r) r, create_body_gauge (entered w r) r,
   update_body_gauge (entered w r) r, delete_body_gauge (entered w r) r⟩

/-- C9 at the failing input.  On the seeded store (one record), `GET /person/list?start=1`
lists nothing and writes the length of that empty page, 0, to `person_store_count`,
while the store still holds one record.  After one more record is created the
gauge reads 2; the same list request then returns a page of one record and
overwrites the gauge with 1, while the store holds two records. -/
theorem list_handler_writes_page_length :
    (listPersonsHandler seededWorld listFromOne).1.s.count = 1 ∧
    (listPersonsHandler seededWorld listFromOne).1.m.personStoreCount = 0 ∧
    (listPersonsHandler seededWorld listFromOne).1.m.personStoreCount
      ≠ (listPersonsHandler seededWorld listFromOne).1.s.count ∧
    (createPersonHandler seededWorld postAda).1.m.personStoreCount = 2 ∧
    (listPersonsHandler (createPersonHandler seededWorld postAda).1 listFromOne).1.s.count = 2 ∧
    (listPersonsHandler (createPersonHandler seededWorld postAda).1
      listFromOne).1.m.personStoreCount = 1 := by
  refine ⟨by decide, by decide, by decide, by decide, by decide, by decide⟩

end Prometric
